import Mathlib

/-!
# Verification of the reminder conversation engine (MVP-CHATBOT)

Shallow embedding, in Lean 4, of the conversation-flow state machine, the
draft merger, the reminder scheduler and the date normalizer of the
MVP-CHATBOT repository, together with theorems settling the frozen claims
about them.

Sources embedded:
* `src/conversation-flow.ts` — `mergeParsedIntoDraft`, `getNextPrompt`,
  the `WAIT_DAYS` branch and the `CONFIRM` commit branch of the message
  handler;
* `src/utils.ts` — the (dead-code) set-once variant of
  `mergeParsedIntoDraft`;
* `reminders.ts` (Mongo version) — `parseValidadeAtNine`, `calcNotifyDate`,
  `saveReminder`, `scheduleReminder` and its fire callback;
* `parsingBot.ts` — `normalizeDate`, `isValidDateParts`, `isLeap`,
  `inferYearThenFormat`.

JavaScript `Date` values are modelled as integers (minutes since the civil
epoch 1970-01-01 00:00 in the reference timezone), using the standard
days-from-civil calendar arithmetic, which matches ECMAScript `Date`
normalization of out-of-range fields.  `null`/`undefined` become `Option`;
JS string falsiness (`!s` true for `""`) is modelled explicitly.
-/

namespace Chatbot

/-! ## Basic character/string helpers shared by the embeddings -/

/-- JS `\s` for the inputs at issue: ASCII whitespace. -/
def isSpace (c : Char) : Bool :=
  c = ' ' || c = '\t' || c = '\n' || c = '\r' || c = '\x0b' || c = '\x0c'

/-- The double-quote character (it appears in the bare-number regex of the
`WAIT_DAYS` branch). -/
def quoteChar : Char := Char.ofNat 34

/-- Numeric value of a (non-empty) digit string, as JS `Number` computes it
on an all-digit match. -/
def natOfDigits (ds : List Char) : Nat :=
  ds.foldl (fun a c => a * 10 + (c.toNat - 48)) 0

/-- `String(n).padStart(2, "0")` from `parsingBot.ts` (`pad`). -/
def pad (n : Nat) : String :=
  if n < 10 then "0" ++ toString n else toString n

/-- Drop a leading run of whitespace (a greedy `\s*`). -/
def dropSpaces (cs : List Char) : List Char := cs.dropWhile (fun c => isSpace c)

/-- All-digit test for a character list. -/
def allDigits (cs : List Char) : Bool := cs.all (fun c => c.isDigit)

/-- JS `String.prototype.trim`: strip leading and trailing whitespace. -/
def jsTrim (cs : List Char) : List Char :=
  (dropSpaces (dropSpaces cs).reverse).reverse

/-- JS trim on `String`. -/
def jsTrimStr (s : String) : String := String.mk (jsTrim s.data)

/-- Split a character list on a separator character (used to decide the
anchored `DD/MM[/Y...]` regexes: an anchored all-digit-groups-and-slashes
regex matches exactly when the slash-split parts are digit runs of the
right lengths). -/
def splitOnChar (sep : Char) : List Char → List (List Char)
  | [] => [[]]
  | c :: rest =>
    if c = sep then [] :: splitOnChar sep rest
    else
      match splitOnChar sep rest with
      | h :: t => (c :: h) :: t
      | [] => [[c]]

/-! ## Data model: session drafts and parsed extractions

`Session.draft` from `conversation-flow.ts`: three optional fields.
`undefined`/`null` are both modelled as `none`. -/

structure Draft where
  produto : Option String
  validade : Option String
  diasAntes : Option Int
deriving DecidableEq, Repr

/-- `ParsedReminder` from `conversation-flow.ts` / `parsingBot.ts`. -/
structure ParsedReminder where
  produto : Option String
  validade : Option String
  diasAntes : Option Int
deriving DecidableEq, Repr

/-- JS falsiness of an optional string field: `!x` is true when the field
is `null`/`undefined` or the empty string. -/
def falsyStr : Option String → Bool
  | none => true
  | some s => s = ""

/-- `p.charAt(0).toUpperCase() + p.slice(1)` from `mergeParsedIntoDraft`
(`conversation-flow.ts` line 111); ASCII uppercasing, which covers the
single-character behaviour exercised here. -/
def capitalizeFirst (s : String) : String :=
  match s.data with
  | [] => s
  | c :: rest => String.mk (c.toUpper :: rest)

/-- `mergeParsedIntoDraft` from `conversation-flow.ts` lines 104-127 (the
merge the live message handler uses).  Returns the updated draft and the
`filled` list.  Note: despite the doc comment in the source ("sem
sobrescrever campos já preenchidos"), this version never consults the
current values of the draft — each non-null parsed field is written
unconditionally (`produto` after trimming and first-letter capitalization,
skipped only when the trim is empty). -/
def mergeParsedIntoDraft (draft : Draft) (parsed : Option ParsedReminder) :
    Draft × List String :=
  match parsed with
  | none => (draft, [])
  | some p =>
    let step1 : Draft × List String :=
      match p.produto with
      | some s =>
        let t := jsTrimStr s
        if t.length > 0 then
          (⟨some (capitalizeFirst t), draft.validade, draft.diasAntes⟩, ["produto"])
        else (draft, [])
      | none => (draft, [])
    let step2 : Draft × List String :=
      match p.validade with
      | some v => (⟨step1.1.produto, some v, step1.1.diasAntes⟩, step1.2 ++ ["validade"])
      | none => step1
    match p.diasAntes with
    | some n => (⟨step2.1.produto, step2.1.validade, some n⟩, step2.2 ++ ["diasAntes"])
    | none => step2

/-- Draft shape used by the dead-code `src/utils.ts` variant (there the
lead-time field is named `daysBefore`). -/
structure UtilsDraft where
  produto : Option String
  validade : Option String
  daysBefore : Option Int
deriving DecidableEq, Repr

structure UtilsParsed where
  produto : Option String
  validade : Option String
  daysBefore : Option Int
deriving DecidableEq, Repr

/-- `mergeParsedIntoDraft` from `src/utils.ts` lines 46-71: the set-once
variant (not imported anywhere; kept for reference).  A field is copied
only when the current value in the draft is `null`/`undefined`. -/
def utilsMergeParsedIntoDraft (draft : UtilsDraft) (parsed : Option UtilsParsed) :
    UtilsDraft × List String :=
  match parsed with
  | none => (draft, [])
  | some p =>
    let step1 : UtilsDraft × List String :=
      match p.produto, draft.produto with
      | some s, none => (⟨some s, draft.validade, draft.daysBefore⟩, ["produto"])
      | _, _ => (draft, [])
    let step2 : UtilsDraft × List String :=
      match p.validade, step1.1.validade with
      | some v, none => (⟨step1.1.produto, some v, step1.1.daysBefore⟩, step1.2 ++ ["validade"])
      | _, _ => step1
    match p.daysBefore, step2.1.daysBefore with
    | some n, none => (⟨step2.1.produto, step2.1.validade, some n⟩, step2.2 ++ ["daysBefore"])
    | _, _ => step2

/-! ## Conversation state machine -/

/-- `State` from `conversation-flow.ts` line 7. -/
inductive State where
  | WAIT_IMAGE
  | WAIT_DAYS
  | WAIT_PRODUCT
  | CONFIRM
deriving DecidableEq, Repr

/-- The state component of `getNextPrompt` (`conversation-flow.ts` lines
129-171).  The source also builds the outgoing prompt message (and a
BR-formatted date for the CONFIRM summary); only the returned `state` is
modelled, since every claim is about which state is chosen.  The guards
mirror JS truthiness: `!validade` and `!produto` are falsiness tests,
`diasAntes == null` is a null test only. -/
def getNextPrompt (draft : Draft) : State :=
  if falsyStr draft.validade then .WAIT_IMAGE
  else if draft.diasAntes = none then .WAIT_DAYS
  else if falsyStr draft.produto then .WAIT_PRODUCT
  else .CONFIRM

/-! ## WAIT_DAYS branch of the message handler -/

/-- The bare-number regex from `conversation-flow.ts` line 247 together
with `Number(...)` on the captured group: the whole (pre-trimmed) message
is optional whitespace, an optional double quote, an optionally signed
digit run, an optional double quote and optional whitespace.  Each
component is decided greedily; no component overlaps the next, so this is
exactly the backtracking behaviour of the anchored regex. -/
def parseBareInt (text : String) : Option Int :=
  let cs := dropSpaces text.data
  let cs := match cs with
    | c :: r => if c = quoteChar then r else c :: r
    | [] => []
  let neg : Bool := match cs with
    | c :: _ => c = '-'
    | [] => false
  let cs := if neg then cs.tail else cs
  let ds := cs.takeWhile (fun c => c.isDigit)
  let rest := cs.dropWhile (fun c => c.isDigit)
  if ds.isEmpty then none
  else
    let rest := match rest with
      | c :: r => if c = quoteChar then r else c :: r
      | [] => []
    if rest.all (fun c => isSpace c) then
      some ((if neg then -1 else 1) * (natOfDigits ds : Int))
    else none

/-- Outcome of the `WAIT_DAYS` branch (`conversation-flow.ts` lines
246-261).  `accepted` and `repromptInvalid` return from the handler before
the `requestParsingBot` call; `fallthrough` means control reaches the
general text-extractor block. -/
inductive WaitDaysOutcome where
  | accepted (draft : Draft) (next : State)
  | repromptInvalid (draft : Draft)
  | fallthrough
deriving DecidableEq, Repr

/-- The `WAIT_DAYS` branch of the message handler: a bare-integer message
in `[0, 3650]` sets `diasAntes` directly and advances the state via
`getNextPrompt`; a bare integer out of range answers the "número inválido"
re-prompt without touching the draft; anything else falls through to the
extractor path. -/
def handleWaitDays (draft : Draft) (text : String) : WaitDaysOutcome :=
  if text = "" then .fallthrough
  else
    match parseBareInt text with
    | some n =>
      if 0 ≤ n ∧ n ≤ 3650 then
        let d : Draft := ⟨draft.produto, draft.validade, some n⟩
        .accepted d (getNextPrompt d)
      else .repromptInvalid draft
    | none => .fallthrough

/-! ## Calendar arithmetic (model of ECMAScript `Date`)

A JS `Date` in the reference timezone is modelled as the integer number of
minutes since 1970-01-01 00:00.  `daysFromCivilNorm` is the standard
days-from-civil algorithm (floor divisions throughout), which agrees with
ECMAScript `MakeDay`; `jsDateDays` additionally normalizes an arbitrary
integer month and day-of-month exactly as `new Date(y, m0, d)` does. -/

/-- Days since 1970-01-01 of the civil date `(y, m, d)` with `m ∈ [1,12]`
(`d` may be out of range; extra days roll over, as in JS). -/
def daysFromCivilNorm (y m d : Int) : Int :=
  let yS := y - (if m ≤ 2 then 1 else 0)
  let era := Int.fdiv yS 400
  let yoe := yS - era * 400
  let mp := if 2 < m then m - 3 else m + 9
  let doy := Int.fdiv (153 * mp + 2) 5 + (d - 1)
  let doe := yoe * 365 + Int.fdiv yoe 4 - Int.fdiv yoe 100 + doy
  era * 146097 + doe - 719468

/-- `new Date(y, m - 1, d)` (date part, local): month `m` is 1-based here
and may be any integer; JS normalizes it into the year. -/
def jsDateDays (y m d : Int) : Int :=
  let m0 := m - 1
  let y2 := y + Int.fdiv m0 12
  let m2 := Int.fmod m0 12 + 1
  daysFromCivilNorm y2 m2 1 + (d - 1)

/-- The anchored shape test `\d{4}-\d{2}-\d{2}` with the three digit
groups extracted. -/
def parseYMD (s : String) : Option (Nat × Nat × Nat) :=
  match s.data with
  | [a, b, c, d, s1, e, f, s2, g, h] =>
    if s1 = '-' && s2 = '-' && allDigits [a, b, c, d, e, f, g, h] then
      some (natOfDigits [a, b, c, d], natOfDigits [e, f], natOfDigits [g, h])
    else none
  | _ => none

/-- `isLeap` from `parsingBot.ts` line 370. -/
def isLeap (y : Nat) : Bool :=
  (y % 4 = 0 && y % 100 ≠ 0) || y % 400 = 0

/-- Entry `mdays[mon - 1]` of the month-length table in `isValidDateParts`
(`parsingBot.ts` line 367). -/
def monthLength (y : Nat) : Nat → Nat
  | 1 => 31
  | 2 => if isLeap y then 29 else 28
  | 3 => 31
  | 4 => 30
  | 5 => 31
  | 6 => 30
  | 7 => 31
  | 8 => 31
  | 9 => 30
  | 10 => 31
  | 11 => 30
  | 12 => 31
  | _ => 0

/-- `isValidDateParts` from `parsingBot.ts` lines 365-369: month in range,
day at least 1 and at most the real month length (leap years included).
The source puts no bound on the year. -/
def isValidDateParts (y mon d : Nat) : Bool :=
  if mon < 1 || 12 < mon || d < 1 then false
  else d ≤ monthLength y mon

/-! ## Reminder scheduler (`reminders.ts`, Mongo version) -/

/-- `Reminder` from `reminders.ts` lines 11-19 (all fields present, as the
TS type declares them). -/
structure Reminder where
  id : String
  chatId : String
  produto : String
  validade : String
  diasAntes : Int
  createdAt : String
deriving DecidableEq, Repr

/-- `parseValidadeAtNine` from `reminders.ts` lines 59-66: a string of
shape `YYYY-MM-DD` becomes the local instant 09:00 of that date (minutes
since epoch).  A string that fails the shape test falls back to
`new Date(validade)`, and a shape-matching but calendar-invalid string
gives an invalid `Date` under ECMAScript ISO parsing; both produce an
invalid `Date` for every non-date string, modelled as `none`. -/
def parseValidadeAtNine (validade : String) : Option Int :=
  match parseYMD validade with
  | some (y, m, d) =>
    if isValidDateParts y m d then
      some (daysFromCivilNorm (y : Int) (m : Int) (d : Int) * 1440 + 540)
    else none
  | none => none

/-- `calcNotifyDate` from `reminders.ts` lines 68-73:
`notifyDate.setDate(validadeDate.getDate() - diasAntes)` subtracts exactly
`diasAntes` days (JS rolls the day-of-month over), keeping the 09:00
time-of-day. -/
def calcNotifyDate (validade : String) (diasAntes : Int) : Option Int :=
  (parseValidadeAtNine validade).map (fun ts => ts - diasAntes * 1440)

/-- The in-process timer registry (`schedule.scheduledJobs` of
node-schedule): job name paired with its fire instant. -/
abbrev Timers := List (String × Int)

/-- Number of active timers keyed by a given reminder id. -/
def countTimers (timers : Timers) (id : String) : Nat :=
  (timers.filter (fun p => p.1 = id)).length

/-- `scheduleReminder` from `reminders.ts` lines 108-148, as a function of
the current instant and the timer registry.  Past-or-present fire times
return with the registry untouched (only a warning is logged); otherwise
any existing job with the same reminder id is cancelled and one new job is
registered under that id.  When `calcNotifyDate` yields an invalid date
(`none`), the `<=` comparison on `NaN` is false, the existing job is still
cancelled, and node-schedule registers no job for an invalid date. -/
def scheduleReminder (now : Int) (timers : Timers) (r : Reminder) : Timers :=
  match calcNotifyDate r.validade r.diasAntes with
  | some t =>
    if t ≤ now then timers
    else (timers.filter (fun p => ¬ p.1 = r.id)) ++ [(r.id, t)]
  | none => timers.filter (fun p => ¬ p.1 = r.id)

/-! ## Persistence (`saveReminder`) and the CONFIRM commit branch -/

/-- A reminder record as it exists at runtime (fields may be absent:
nothing in `saveReminder` checks them, so the persistence layer is
modelled over optional fields). -/
structure RawReminder where
  id : String
  chatId : String
  produto : Option String
  validade : Option String
  diasAntes : Option Int
  createdAt : String
deriving DecidableEq, Repr

inductive SaveOutcome where
  | inserted
  | duplicateIgnored
deriving DecidableEq, Repr

/-- The persistence effect of `saveReminder` (`reminders.ts` lines
84-102): `insertOne` against the unique index on `id`; a duplicate-key
error (code 11000) is logged and swallowed.  No field of the reminder is
validated.  (The source then calls `scheduleReminder`, modelled separately
above.) -/
def saveReminderStore (store : List RawReminder) (r : RawReminder) :
    List RawReminder × SaveOutcome :=
  if store.any (fun x => x.id = r.id) then (store, .duplicateIgnored)
  else (store ++ [r], .inserted)

/-- JS truthiness test `!produto || !validade || diasAntes == null` from
`conversation-flow.ts` line 215, in source order. -/
def draftIncomplete (d : Draft) : Bool :=
  falsyStr d.produto || falsyStr d.validade || d.diasAntes.isNone

inductive ConfirmOutcome where
  | repromptIncomplete (next : State)
  | committed (r : RawReminder)
deriving DecidableEq, Repr

/-- The `sim` branch of the CONFIRM state (`conversation-flow.ts` lines
214-241): with any required draft field missing the handler recomputes the
next prompt and returns without persisting anything; otherwise it builds
the reminder record and persists it via `saveReminder`.  Returns the
outcome and the resulting store. -/
def confirmSim (draft : Draft) (store : List RawReminder)
    (newId chatId createdAt : String) : ConfirmOutcome × List RawReminder :=
  if draftIncomplete draft then
    (.repromptIncomplete (getNextPrompt draft), store)
  else
    let r : RawReminder :=
      ⟨newId, chatId, draft.produto, draft.validade, draft.diasAntes, createdAt⟩
    (.committed r, (saveReminderStore store r).1)

/-! ## The timer fire callback -/

/-- Environment of one timer firing: whether a WhatsApp client is
attached, whether `sendMessage` resolves (`sendOk = false` means it
rejects), and whether the Mongo collection handle is set. -/
structure FireEnv where
  hasClient : Bool
  sendOk : Bool
  hasCollection : Bool
deriving DecidableEq, Repr

/-- Observable events of the fire callback, in order. -/
inductive FireEvent where
  | sendAttempt (chatId text : String)
  | logNoClient
  | markSentAt (id : String)
  | logSendError
deriving DecidableEq, Repr

/-- The rendered notification text (`reminders.ts` line 124). -/
def renderReminderText (r : Reminder) : String :=
  "⏰ Lembrete: *" ++ r.produto ++ "* vence em " ++ r.validade

/-- The fire callback passed to `schedule.scheduleJob` (`reminders.ts`
lines 123-146), as the trace of events it produces.  The whole body is one
`try` block: the send comes first, then (still inside the `try`) the
best-effort `updateOne` that marks `sentAt` (its own rejections are
swallowed by `.catch`); a rejecting send jumps to the `catch`, which only
logs — so the `sentAt` update is skipped in that case. -/
def reminderFireCallback (r : Reminder) (env : FireEnv) : List FireEvent :=
  let tryRun : List FireEvent × Bool :=
    if env.hasClient then
      if env.sendOk then
        ([.sendAttempt r.chatId (renderReminderText r)]
          ++ (if env.hasCollection then [.markSentAt r.id] else []), false)
      else ([.sendAttempt r.chatId (renderReminderText r)], true)
    else
      ([.logNoClient]
        ++ (if env.hasCollection then [.markSentAt r.id] else []), false)
  tryRun.1 ++ (if tryRun.2 then [.logSendError] else [])

/-! ## Date normalizer (`parsingBot.ts` lines 301-380)

`nowInSaoPaulo` reads the current date in the fixed reference timezone
(`America/Sao_Paulo`); it is modelled as an explicit `Civil` parameter. -/

/-- The current civil date in the reference timezone. -/
structure Civil where
  year : Nat
  month : Nat
  day : Nat
deriving DecidableEq, Repr

/-- Digit run of length 1 or 2 (one group of the `DD/MM` regexes). -/
def digits12 (s : String) : Bool :=
  allDigits s.data && (s.length = 1 || s.length = 2)

/-- Digit run of exactly `n` characters. -/
def digitsExactly (n : Nat) (s : String) : Bool :=
  allDigits s.data && s.length = n

/-- `inferYearThenFormat` from `parsingBot.ts` lines 372-380.  `candidate`
is `new Date(year, month - 1, day)` (so an out-of-range day or month rolls
over before the comparison); `today` is the midnight of the current date
in the reference timezone; the year is bumped when the candidate is
strictly before today; finally the (possibly bumped) year is validated
with the real calendar arithmetic. -/
def inferYearThenFormat (day month : Nat) (today : Civil) : Option String :=
  let year := today.year
  let candidate := jsDateDays (year : Int) (month : Int) (day : Int)
  let todayDays := jsDateDays (today.year : Int) (today.month : Int) (today.day : Int)
  let year := if candidate < todayDays then year + 1 else year
  if isValidDateParts year month day then
    some (toString year ++ "-" ++ pad month ++ "-" ++ pad day)
  else none

/-- The `DD/MM/YYYY` branch of `normalizeDate` (lines 308-316).  `none`
means the anchored regex did not match (the source tries the next
pattern); `some r` means it matched and the source returns `r` — including
`some none` for a calendar-invalid date. -/
def ddmmyyyyBranch (t : String) : Option (Option String) :=
  match splitOnChar '/' t.data with
  | [a, b, c] =>
    if digits12 (String.mk a) && digits12 (String.mk b) && digitsExactly 4 (String.mk c) then
      let d := natOfDigits a
      let mon := natOfDigits b
      let y := natOfDigits c
      some (if isValidDateParts y mon d then
              some (toString y ++ "-" ++ pad mon ++ "-" ++ pad d)
            else none)
    else none
  | _ => none

/-- The `DD/MM/YY` branch (lines 318-326): the year is `2000 + YY`. -/
def ddmmyyBranch (t : String) : Option (Option String) :=
  match splitOnChar '/' t.data with
  | [a, b, c] =>
    if digits12 (String.mk a) && digits12 (String.mk b) && digitsExactly 2 (String.mk c) then
      let d := natOfDigits a
      let mon := natOfDigits b
      let y := 2000 + natOfDigits c
      some (if isValidDateParts y mon d then
              some (toString y ++ "-" ++ pad mon ++ "-" ++ pad d)
            else none)
    else none
  | _ => none

/-- The `DD/MM` branch (lines 328-334): year inference. -/
def ddmmBranch (today : Civil) (t : String) : Option (Option String) :=
  match splitOnChar '/' t.data with
  | [a, b] =>
    if digits12 (String.mk a) && digits12 (String.mk b) then
      some (inferYearThenFormat (natOfDigits a) (natOfDigits b) today)
    else none
  | _ => none

/-! ### The spelled-out month phrase

Regex (line 344): optional spaces, 1-2 digits, a separator that is either
spaces-`de`-spaces or at least one space, a lazy non-digit month word, an
optional space-separated 4-digit year, trailing spaces.  The matcher below
reproduces the backtracking order of the regex: the `de` separator
alternative is tried first, the month word grows lazily (shortest first),
and the optional year group is tried before being skipped.  The greedy
space runs inside the separator are committed: a backtracked shorter run
can only prepend whitespace to the captured month word (or capture an
all-whitespace word, for which the dictionary lookup fails), and the word
is trimmed before lookup, so the committed form decides `normalizeDate`
identically. -/

/-- Tail `(?:\s+(\d{4}))?\s*$`: either spaces then a 4-digit year then
spaces, or only spaces; `none` when neither matches. -/
def matchPhraseTail (cs : List Char) : Option (Option Nat) :=
  match cs with
  | [] => some none
  | c :: _ =>
    if isSpace c then
      let r := dropSpaces cs
      let ds := r.takeWhile (fun x => x.isDigit)
      let r2 := r.dropWhile (fun x => x.isDigit)
      if ds.length = 4 && r2.all (fun x => isSpace x) then some (some (natOfDigits ds))
      else if cs.all (fun x => isSpace x) then some none
      else none
    else none

/-- Lazy `([^\d]+?)` followed by the tail: the shortest non-empty
non-digit prefix whose remainder matches the tail. -/
def matchMonthWord (acc : List Char) : List Char → Option (String × Option Nat)
  | [] => none
  | c :: rest =>
    if c.isDigit then none
    else
      match matchPhraseTail rest with
      | some y => some (String.mk (c :: acc).reverse, y)
      | none => matchMonthWord (c :: acc) rest

/-- The separator alternation `(?:\s*de\s*|\s+)` followed by month word
and tail; the `de` alternative is tried first and, if the rest of the
match fails under it, the plain-spaces alternative is tried. -/
def matchSepWordTail (cs : List Char) : Option (String × Option Nat) :=
  let alt1 : Option (String × Option Nat) :=
    match dropSpaces cs with
    | 'd' :: 'e' :: r2 => matchMonthWord [] (dropSpaces r2)
    | _ => none
  match alt1 with
  | some r => some r
  | none =>
    match cs with
    | c :: _ => if isSpace c then matchMonthWord [] (dropSpaces cs) else none
    | [] => none

/-- The whole month-phrase regex: leading spaces, a 1-2 digit day, then
separator, month word and tail.  (A digit run longer than two characters
can never match: the character after a shortened day group would be a
digit, and neither separator alternative starts with one.) -/
def matchMonthPhrase (t : String) : Option (Nat × String × Option Nat) :=
  let cs := dropSpaces t.data
  let ds := cs.takeWhile (fun c => c.isDigit)
  let rest := cs.dropWhile (fun c => c.isDigit)
  if ds.length = 0 || 2 < ds.length then none
  else
    match matchSepWordTail rest with
    | some (w, y) => some (natOfDigits ds, w, y)
    | none => none

/-- JS `toLowerCase` restricted to the characters that can reach the month
lookup: ASCII plus the accented letters of the Portuguese month names. -/
def jsLowerChar (c : Char) : Char :=
  if c = 'À' then 'à' else if c = 'Á' then 'á' else if c = 'Â' then 'â'
  else if c = 'Ã' then 'ã' else if c = 'Ç' then 'ç' else if c = 'É' then 'é'
  else if c = 'Ê' then 'ê' else if c = 'Í' then 'í' else if c = 'Ó' then 'ó'
  else if c = 'Ô' then 'ô' else if c = 'Õ' then 'õ' else if c = 'Ú' then 'ú'
  else if c = 'Ü' then 'ü' else c.toLower

/-- `normalize("NFD").replace(...)` on the month word: decompose and drop
combining marks — i.e. strip the accents that occur in Portuguese month
names (ç included, which decomposes to c plus a cedilla mark). -/
def stripAccentChar (c : Char) : Char :=
  if c = 'á' || c = 'à' || c = 'â' || c = 'ã' then 'a'
  else if c = 'é' || c = 'ê' then 'e'
  else if c = 'í' then 'i'
  else if c = 'ó' || c = 'ô' || c = 'õ' then 'o'
  else if c = 'ú' || c = 'ü' then 'u'
  else if c = 'ç' then 'c'
  else c

def stripAccents (s : String) : String := String.mk (s.data.map stripAccentChar)

def jsToLower (s : String) : String := String.mk (s.data.map jsLowerChar)

/-- First token of the (already trimmed) month word: `split(/\s+/)[0]`. -/
def firstToken (s : String) : String :=
  String.mk (s.data.takeWhile (fun c => ¬ isSpace c))

/-- The month-name dictionary `months` from `parsingBot.ts` lines 337-342. -/
def monthsLookup (w : String) : Option Nat :=
  if w = "janeiro" || w = "jan" then some 1
  else if w = "fevereiro" || w = "fev" then some 2
  else if w = "marco" || w = "março" || w = "mar" then some 3
  else if w = "abril" || w = "abr" then some 4
  else if w = "maio" || w = "mai" then some 5
  else if w = "junho" || w = "jun" then some 6
  else if w = "julho" || w = "jul" then some 7
  else if w = "agosto" || w = "ago" then some 8
  else if w = "setembro" || w = "set" then some 9
  else if w = "outubro" || w = "out" then some 10
  else if w = "novembro" || w = "nov" then some 11
  else if w = "dezembro" || w = "dez" then some 12
  else none

/-- The month-phrase branch of `normalizeDate` (lines 344-360): lowercase,
trim and de-accent the captured word, look it up (full word, then 3-char
prefix, then first token, then 3-char prefix again); with a (truthy)
explicit year the date is validated directly, otherwise the year is
inferred. -/
def monthPhraseBranch (today : Civil) (t : String) : Option (Option String) :=
  match matchMonthPhrase t with
  | none => none
  | some (d, wRaw, yearOpt) =>
    let w := stripAccents (jsTrimStr (jsToLower wRaw))
    let mon0 :=
      match monthsLookup w with
      | some m => some m
      | none => monthsLookup (String.mk (w.data.take 3))
    let mon :=
      match mon0 with
      | some m => some m
      | none =>
        match monthsLookup (firstToken w) with
        | some m => some m
        | none => monthsLookup (String.mk (w.data.take 3))
    match mon with
    | none => some none
    | some mon =>
      match yearOpt with
      | some y =>
        if y ≠ 0 then
          some (if isValidDateParts y mon d then
                  some (toString y ++ "-" ++ pad mon ++ "-" ++ pad d)
                else none)
        else some (inferYearThenFormat d mon today)
      | none => some (inferYearThenFormat d mon today)

/-- `normalizeDate` from `parsingBot.ts` lines 301-363.  The branches are
tried in source order and each one, once its anchored regex matches,
commits (returning `null` rather than trying later patterns when its date
is rejected).  The first branch returns an ISO-shaped input unchanged,
with no calendar validation. -/
def normalizeDate (today : Civil) (input : String) : Option String :=
  if input = "" then none
  else
    let t := jsTrimStr input
    if (parseYMD t).isSome then some t
    else
      match ddmmyyyyBranch t with
      | some r => r
      | none =>
        match ddmmyyBranch t with
        | some r => r
        | none =>
          match ddmmBranch today t with
          | some r => r
          | none =>
            match monthPhraseBranch today t with
            | some r => r
            | none => none

/-! # Theorems settling the claims -/

/-- C1 (code bug): the merge actually used by the message handler
overwrites an already-set draft field.  Evaluating `mergeParsedIntoDraft`
of `conversation-flow.ts` at the failing input: a draft whose `validade`
is already `2026-01-10`, merged with an extraction carrying
`validade = 2026-02-02`, ends with `validade = 2026-02-02` — the older
value is lost, contradicting the doc comment of the function itself ("sem
sobrescrever campos já preenchidos") and the set-once rule (which the
dead-code `src/utils.ts` variant, `utilsMergeParsedIntoDraft`, does
implement). -/
theorem c1_merge_overwrites_set_field :
    (mergeParsedIntoDraft ⟨none, some "2026-01-10", none⟩
        (some ⟨none, some "2026-02-02", none⟩)).1.validade = some "2026-02-02" := by
  rfl

/-- C6: the next-state function is pure in draft-field presence with the
fixed precedence date, then lead-time, then product: an empty draft maps
to WAIT_IMAGE, a draft with only `validade` to WAIT_DAYS, a draft with
`validade` and `diasAntes` but no `produto` to WAIT_PRODUCT, and a draft
with all three fields to CONFIRM (for any non-empty field values). -/
theorem c6_state_mapping (p v : String) (n : Int) (hp : p ≠ "") (hv : v ≠ "") :
    getNextPrompt ⟨none, none, none⟩ = .WAIT_IMAGE ∧
    getNextPrompt ⟨none, some v, none⟩ = .WAIT_DAYS ∧
    getNextPrompt ⟨none, some v, some n⟩ = .WAIT_PRODUCT ∧
    getNextPrompt ⟨some p, some v, some n⟩ = .CONFIRM := by
  simp [getNextPrompt, falsyStr, hp, hv]

/-- Witness for C6 at concrete field values. -/
theorem c6_state_mapping_witness :
    getNextPrompt ⟨some "Leite", some "2026-01-10", some 7⟩ = .CONFIRM :=
  (c6_state_mapping "Leite" "2026-01-10" 7 (by decide) (by decide)).2.2.2

/-- C9: while in WAIT_DAYS, a message that is a bare integer literal is
handled without the general text extractor: a value in `[0, 3650]` is
written to `diasAntes` and the state advances per the next-state function;
a value outside `[0, 3650]` answers the invalid-number re-prompt and
leaves the draft unchanged. -/
theorem c9_wait_days_bare_integer (draft : Draft) (text : String) (n : Int)
    (hp : parseBareInt text = some n) :
    (0 ≤ n → n ≤ 3650 →
      handleWaitDays draft text =
        .accepted ⟨draft.produto, draft.validade, some n⟩
          (getNextPrompt ⟨draft.produto, draft.validade, some n⟩)) ∧
    (¬ (0 ≤ n ∧ n ≤ 3650) →
      handleWaitDays draft text = .repromptInvalid draft) := by
  have htext : ¬ text = "" := by
    intro h
    rw [h] at hp
    have h0 : parseBareInt "" = none := by rfl
    rw [h0] at hp
    cases hp
  constructor
  · intro h1 h2
    simp [handleWaitDays, htext, hp, h1, h2]
  · intro h3
    simp [handleWaitDays, htext, hp, h3]

/-- Witness for C9: the message "7" in WAIT_DAYS sets `diasAntes = 7` and
advances (to WAIT_PRODUCT for a draft that already has a date). -/
theorem c9_wait_days_witness :
    handleWaitDays ⟨none, some "2026-01-10", none⟩ "7" =
      .accepted ⟨none, some "2026-01-10", some 7⟩
        (getNextPrompt ⟨none, some "2026-01-10", some 7⟩) :=
  (c9_wait_days_bare_integer ⟨none, some "2026-01-10", none⟩ "7" 7 (by rfl)).1
    (by decide) (by decide)

/-- C10: when a merge fills `produto` from an extraction, the stored value
is the extracted string trimmed and with its first character uppercased;
an extraction whose `produto` trims to the empty string leaves the field
as it was. -/
theorem c10_produto_trimmed_capitalized (draft : Draft) (p : String)
    (v : Option String) (n : Option Int) :
    (jsTrimStr p ≠ "" →
      (mergeParsedIntoDraft draft (some ⟨some p, v, n⟩)).1.produto
        = some (capitalizeFirst (jsTrimStr p))) ∧
    (jsTrimStr p = "" →
      (mergeParsedIntoDraft draft (some ⟨some p, v, n⟩)).1.produto
        = draft.produto) := by
  have hlen : (jsTrimStr p).length = (jsTrimStr p).data.length :=
    (String.length_data _).symm
  constructor
  · intro h
    have hpos : 0 < (jsTrimStr p).length := by
      rw [hlen]
      cases hd : (jsTrimStr p).data with
      | nil =>
        exact absurd (by cases hjs : jsTrimStr p with
          | _ => simp_all) h
      | cons c cs => simp
    cases v <;> cases n <;> simp [mergeParsedIntoDraft, hpos]
  · intro h
    have hz : ¬ 0 < (jsTrimStr p).length := by
      rw [h]
      decide
    cases v <;> cases n <;> simp [mergeParsedIntoDraft, hz]

/-- Witness for C10: merging produto `"  leite integral "` stores
`"Leite integral"`. -/
theorem c10_produto_witness :
    (mergeParsedIntoDraft ⟨none, none, none⟩
        (some ⟨some "  leite integral ", none, none⟩)).1.produto
      = some "Leite integral" := by
  have h := (c10_produto_trimmed_capitalized ⟨none, none, none⟩
    "  leite integral " none none).1 (by decide)
  rw [h]
  rfl

/-- A concrete reminder used in the closed evaluations below. -/
def rEx : Reminder :=
  ⟨"rem-1", "5511999999999@c.us", "Leite", "2026-01-10", 3, "2025-12-01T00:00:00"⟩

/-- C2 (counterexample): when the send rejects, `sentAt` is NOT marked.
At a firing with a client attached, a failing send and the collection
available, the callback attempts the send but the trace contains no
`markSentAt` — the `catch` skips the best-effort update. -/
theorem c2_counterexample_failed_send_skips_mark :
    FireEvent.sendAttempt "5511999999999@c.us" (renderReminderText rEx)
        ∈ reminderFireCallback rEx ⟨true, false, true⟩ ∧
    FireEvent.markSentAt "rem-1" ∉ reminderFireCallback rEx ⟨true, false, true⟩ := by
  constructor
  · simp [reminderFireCallback, rEx]
  · simp [reminderFireCallback, rEx, renderReminderText]

/-- C2 (amended): when a timer fires with a sender attached, the sender is
invoked with the conversation id of the reminder and the rendered message;
`sentAt` is then marked (best-effort) exactly when the send did not reject
and the storage handle is available — a rejecting send is caught, logged,
and leaves `sentAt` unmarked. -/
theorem c2_sentAt_marked_iff_send_ok (r : Reminder) (env : FireEnv)
    (h : env.hasClient = true) :
    FireEvent.sendAttempt r.chatId (renderReminderText r)
        ∈ reminderFireCallback r env ∧
    (FireEvent.markSentAt r.id ∈ reminderFireCallback r env ↔
      env.sendOk = true ∧ env.hasCollection = true) := by
  obtain ⟨hc, so, co⟩ := env
  cases h
  cases so <;> cases co <;> simp [reminderFireCallback]

/-- Witness for C2 (amended): a successful send with storage available
does mark `sentAt`. -/
theorem c2_sentAt_marked_witness :
    FireEvent.markSentAt "rem-1" ∈ reminderFireCallback rEx ⟨true, true, true⟩ :=
  ((c2_sentAt_marked_iff_send_ok rEx ⟨true, true, true⟩ rfl).2).mpr ⟨rfl, rfl⟩

/-- A runtime reminder record with the required field `produto` missing. -/
def rIncomplete : RawReminder :=
  ⟨"rem-1", "5511999999999@c.us", none, some "2026-01-10", some 3,
    "2025-12-01T00:00:00"⟩

/-- C3 (counterexample): `saveReminder` performs no completeness
validation — committing a reminder whose `produto` is missing raises no
INCOMPLETE_REMINDER error (no such error exists in the source) and the
record IS persisted. -/
theorem c3_counterexample_incomplete_persisted :
    saveReminderStore [] rIncomplete = ([rIncomplete], .inserted) := by
  rfl

/-- C3 (amended): completeness is enforced only upstream, in the CONFIRM
branch of the conversation flow: an affirmative reply over a draft with
any required field missing leads to a recomputed re-prompt and nothing is
persisted — but no validation error is surfaced; the storage-level save
itself validates nothing. -/
theorem c3_incomplete_draft_reprompts (draft : Draft) (store : List RawReminder)
    (newId chatId createdAt : String) (h : draftIncomplete draft = true) :
    confirmSim draft store newId chatId createdAt =
      (.repromptIncomplete (getNextPrompt draft), store) := by
  simp [confirmSim, h]

/-- Witness for C3 (amended): confirming with `produto` still missing
re-prompts and leaves the (empty) store untouched. -/
theorem c3_incomplete_draft_witness :
    confirmSim ⟨none, some "2026-01-10", some 3⟩ [] "rem-2" "chat" "t0" =
      (.repromptIncomplete (getNextPrompt ⟨none, some "2026-01-10", some 3⟩), []) :=
  c3_incomplete_draft_reprompts ⟨none, some "2026-01-10", some 3⟩ [] "rem-2"
    "chat" "t0" (by decide)

/-- C5: a reminder whose computed fire time (09:00 of the expiration date
minus `diasAntes` days) is not after the current instant registers no
timer and raises no error: `scheduleReminder` is a total function that
returns the registry unchanged. -/
theorem c5_past_due_schedule_noop (now : Int) (timers : Timers) (r : Reminder)
    (t : Int) (hc : calcNotifyDate r.validade r.diasAntes = some t)
    (hpast : t ≤ now) :
    scheduleReminder now timers r = timers := by
  simp [scheduleReminder, hc, hpast]

/-- Witness for C5: the fire time of `rEx` (2026-01-07 09:00) is before
the chosen current instant, so scheduling leaves the registry unchanged. -/
theorem c5_past_due_witness :
    scheduleReminder 99999999999 [("other", 5)] rEx = [("other", 5)] :=
  c5_past_due_schedule_noop 99999999999 [("other", 5)] rEx 29462940
    (by rfl) (by decide)

/-- After removing every timer keyed `id`, none keyed `id` remains. -/
lemma filter_key_of_removed (l : Timers) (id : String) :
    (l.filter (fun p => ¬ p.1 = id)).filter (fun p => p.1 = id) = [] := by
  induction l with
  | nil => rfl
  | cons a l ih =>
    by_cases h : a.1 = id <;> simp [h, ih]

/-- Removing every timer keyed `id` twice is the same as once. -/
lemma filter_remove_idem (l : Timers) (id : String) :
    (l.filter (fun p => ¬ p.1 = id)).filter (fun p => ¬ p.1 = id)
      = l.filter (fun p => ¬ p.1 = id) := by
  induction l with
  | nil => rfl
  | cons a l ih =>
    by_cases h : a.1 = id <;> simp [h, ih]

/-- C4: for a reminder with a future fire time, calling `scheduleReminder`
twice for the same reminder id leaves exactly one active timer keyed by
that id, because the second call first cancels the timer the first call
registered; re-arming is idempotent (the registry after two calls equals
the registry after one). -/
theorem c4_schedule_twice_one_timer (now : Int) (timers : Timers) (r : Reminder)
    (t : Int) (hc : calcNotifyDate r.validade r.diasAntes = some t)
    (hfut : now < t) :
    countTimers (scheduleReminder now (scheduleReminder now timers r) r) r.id = 1 ∧
    scheduleReminder now (scheduleReminder now timers r) r
      = scheduleReminder now timers r := by
  have hnle : ¬ t ≤ now := not_le.mpr hfut
  have hstep : ∀ l : Timers, scheduleReminder now l r
      = (l.filter (fun p => ¬ p.1 = r.id)) ++ [(r.id, t)] := by
    intro l
    simp [scheduleReminder, hc, hnle]
  rw [hstep, hstep]
  constructor
  · simp [countTimers, List.filter_append, filter_remove_idem, filter_key_of_removed]
  · simp [List.filter_append, filter_remove_idem]

/-- Witness for C4: scheduling `rEx` twice (fire time 2026-01-07 09:00,
current instant 0) leaves exactly one timer keyed `rem-1`, even when a
stale timer with that key was present. -/
theorem c4_schedule_twice_witness :
    countTimers (scheduleReminder 0
        (scheduleReminder 0 [("rem-1", 77), ("other", 5)] rEx) rEx) "rem-1" = 1 :=
  (c4_schedule_twice_one_timer 0 [("rem-1", 77), ("other", 5)] rEx 29462940
    (by rfl) (by decide)).1

/-- C7 (counterexample): the first branch of `normalizeDate` returns any
input already in `YYYY-MM-DD` shape unchanged, with no calendar
validation: the calendar-invalid `2026-02-31` is not rejected (not mapped
to `null`), although the validity predicate of the very same module
refutes it. -/
theorem c7_counterexample_iso_not_validated :
    isValidDateParts 2026 2 31 = false ∧
    normalizeDate ⟨2026, 10, 11⟩ "2026-02-31" = some "2026-02-31" := by
  exact ⟨by rfl, by rfl⟩

/-- C7 (amended): the four quoted normalizations hold — the ISO, the
day-first numeric and the spelled-out month forms of 10 January 2026 all
map to the canonical `2026-01-10`, and the day-first `31/02/2026` is
rejected; the non-ISO branches use real month-length and leap-year
arithmetic (29 February is accepted in 2024 and rejected in 2025) — only
input already in ISO shape bypasses calendar validation. -/
theorem c7_normalizations :
    normalizeDate ⟨2026, 10, 11⟩ "2026-01-10" = some "2026-01-10" ∧
    normalizeDate ⟨2026, 10, 11⟩ "10/01/2026" = some "2026-01-10" ∧
    normalizeDate ⟨2026, 10, 11⟩ "10 de janeiro de 2026" = some "2026-01-10" ∧
    normalizeDate ⟨2026, 10, 11⟩ "31/02/2026" = none ∧
    normalizeDate ⟨2026, 10, 11⟩ "29/02/2024" = some "2024-02-29" ∧
    normalizeDate ⟨2026, 10, 11⟩ "29/02/2025" = none := by
  exact ⟨by rfl, by rfl, by rfl, by rfl, by rfl, by rfl⟩

/-! ## Calendar lemmas for the year-inference claim

`gdays` is the proof-side closed form of the era/year-of-era arithmetic in
`daysFromCivilNorm`; `monthLenI` is the month-length table parametrized by
a 0/1 leap indicator. -/

lemma fdiv4 (a : Int) : Int.fdiv a 4 = a / 4 := Int.fdiv_eq_ediv a (by norm_num)

lemma fdiv5 (a : Int) : Int.fdiv a 5 = a / 5 := Int.fdiv_eq_ediv a (by norm_num)

lemma fdiv12 (a : Int) : Int.fdiv a 12 = a / 12 := Int.fdiv_eq_ediv a (by norm_num)

lemma fdiv100 (a : Int) : Int.fdiv a 100 = a / 100 := Int.fdiv_eq_ediv a (by norm_num)

lemma fdiv400 (a : Int) : Int.fdiv a 400 = a / 400 := Int.fdiv_eq_ediv a (by norm_num)

lemma fmod12 (a : Int) : Int.fmod a 12 = a % 12 := Int.fmod_eq_emod a (by norm_num)

/-- Day count of the Gregorian year boundary: days up to the (shifted)
year `z` as a single polynomial in floor divisions. -/
def gdays (z : Int) : Int := 365 * z + z / 4 - z / 100 + z / 400

lemma daysFromCivilNorm_repr (y m d : Int) :
    daysFromCivilNorm y m d =
      gdays (y - (if m ≤ 2 then 1 else 0))
        + (153 * (if 2 < m then m - 3 else m + 9) + 2) / 5 + (d - 1) - 719468 := by
  rcases le_or_lt m 2 with h | h
  · simp only [daysFromCivilNorm, gdays, fdiv4, fdiv5, fdiv100, fdiv400,
      if_pos h, if_neg (not_lt.mpr h)]
    omega
  · simp only [daysFromCivilNorm, gdays, fdiv4, fdiv5, fdiv100, fdiv400,
      if_neg (not_le.mpr h), if_pos h]
    omega

lemma jsDateDays_repr (y m d : Int) (hm : 1 ≤ m) (hmb : m ≤ 12) :
    jsDateDays y m d =
      gdays (y - (if m ≤ 2 then 1 else 0))
        + (153 * (if 2 < m then m - 3 else m + 9) + 2) / 5 + (d - 1) - 719468 := by
  have h1 : Int.fdiv (m - 1) 12 = 0 := by rw [fdiv12]; omega
  have h2 : Int.fmod (m - 1) 12 = m - 1 := by rw [fmod12]; omega
  simp only [jsDateDays, h1, h2, add_zero]
  have h4 : m - 1 + 1 = m := by ring
  rw [h4, daysFromCivilNorm_repr y m 1]
  ring

/-- One Gregorian year of `gdays`: 365 days plus the leap day exactly when
the (ending) year is leap in the sense of `isLeap`. -/
lemma gdays_year_diff (n : Nat) :
    gdays (n : Int) - gdays ((n : Int) - 1) = 365 + (if isLeap n then 1 else 0) := by
  unfold gdays isLeap
  by_cases h4 : n % 4 = 0 <;> by_cases h100 : n % 100 = 0 <;> by_cases h400 : n % 400 = 0 <;>
    simp [h4, h100, h400] <;> omega

/-- Month lengths, parametrized by the 0/1 leap indicator `L`. -/
def monthLenI (L m : Int) : Int :=
  if m = 2 then 28 + L
  else if m = 4 ∨ m = 6 ∨ m = 9 ∨ m = 11 then 30
  else 31

set_option maxHeartbeats 2000000 in
/-- Within one year, the JS `Date` ordering of two valid calendar dates is
exactly the lexicographic month/day order. -/
lemma jsDateDays_lt_iff (y m1 d1 m2 d2 L : Int)
    (hm1 : 1 ≤ m1) (hm1b : m1 ≤ 12) (hd1 : 1 ≤ d1)
    (hm2 : 1 ≤ m2) (hm2b : m2 ≤ 12) (hd2 : 1 ≤ d2)
    (hL0 : 0 ≤ L) (hL1 : L ≤ 1)
    (hG : gdays y - gdays (y - 1) = 365 + L)
    (hd1b : d1 ≤ monthLenI L m1) (hd2b : d2 ≤ monthLenI L m2) :
    (jsDateDays y m1 d1 < jsDateDays y m2 d2 ↔
      (m1 < m2 ∨ (m1 = m2 ∧ d1 < d2))) := by
  rw [jsDateDays_repr y m1 d1 hm1 hm1b, jsDateDays_repr y m2 d2 hm2 hm2b]
  unfold monthLenI at hd1b hd2b
  interval_cases m1 <;> interval_cases m2 <;> simp_all <;> omega

lemma isValid_bounds {y m d : Nat} (h : isValidDateParts y m d = true) :
    1 ≤ m ∧ m ≤ 12 ∧ 1 ≤ d ∧ d ≤ monthLength y m := by
  unfold isValidDateParts at h
  split at h
  · cases h
  · next hcond =>
    simp at hcond h
    exact ⟨by omega, by omega, by omega, h⟩

lemma monthLength_cast (y m : Nat) (hm : 1 ≤ m) (hmb : m ≤ 12) :
    (monthLength y m : Int) = monthLenI (if isLeap y then 1 else 0) (m : Int) := by
  interval_cases m <;> by_cases hl : isLeap y <;>
    simp [monthLength, monthLenI, hl]

/-- C8: for day/month-only input, the inferred year is the current year of
the reference timezone unless that exact month/day has already elapsed
relative to the current date there (lexicographically earlier month/day),
in which case it is the following year; the result is `null` when the
day/month is not a valid calendar date in the inferred year.  (Hypotheses:
the current date is a real calendar date, and the day/month exists in the
current year, which rules out the rollover of `new Date` inside the
comparison.) -/
theorem c8_day_month_year_inference (d mon : Nat) (today : Civil)
    (hdm : isValidDateParts today.year mon d = true)
    (ht : isValidDateParts today.year today.month today.day = true) :
    inferYearThenFormat d mon today =
      (let year := if mon < today.month ∨ (mon = today.month ∧ d < today.day)
                   then today.year + 1 else today.year
       if isValidDateParts year mon d then
         some (toString year ++ "-" ++ pad mon ++ "-" ++ pad d)
       else none) := by
  obtain ⟨hm1, hm1b, hd1, hd1b⟩ := isValid_bounds hdm
  obtain ⟨hm2, hm2b, hd2, hd2b⟩ := isValid_bounds ht
  have hb1 : (d : Int) ≤ monthLenI (if isLeap today.year then (1:Int) else 0) (mon : Int) := by
    rw [← monthLength_cast today.year mon hm1 hm1b]
    exact_mod_cast hd1b
  have hb2 : (today.day : Int) ≤ monthLenI (if isLeap today.year then (1:Int) else 0)
      (today.month : Int) := by
    rw [← monthLength_cast today.year today.month hm2 hm2b]
    exact_mod_cast hd2b
  have key := jsDateDays_lt_iff (today.year : Int) (mon : Int) (d : Int)
      (today.month : Int) (today.day : Int) (if isLeap today.year then (1:Int) else 0)
      (by exact_mod_cast hm1) (by exact_mod_cast hm1b) (by exact_mod_cast hd1)
      (by exact_mod_cast hm2) (by exact_mod_cast hm2b) (by exact_mod_cast hd2)
      (by split <;> norm_num) (by split <;> norm_num)
      (gdays_year_diff today.year) hb1 hb2
  have keyN : (jsDateDays (today.year : Int) (mon : Int) (d : Int) <
      jsDateDays (today.year : Int) (today.month : Int) (today.day : Int)) ↔
      (mon < today.month ∨ (mon = today.month ∧ d < today.day)) := by
    rw [key]
    omega
  simp only [inferYearThenFormat, keyN]

/-- Witness for C8: on 2026-10-11, the input day/month 25/01 has already
elapsed, so the inferred year is 2027. -/
theorem c8_year_inference_witness :
    inferYearThenFormat 25 1 ⟨2026, 10, 11⟩ = some "2027-01-25" := by
  have h := c8_day_month_year_inference 25 1 ⟨2026, 10, 11⟩ (by decide) (by decide)
  rw [h]
  rfl

end Chatbot
